import Mathlib

/-!
Shallow embedding of the pileup-and-aggregation core of cellsnp-lite
(src/csp.c and src/csp_pileup.c), together with proofs of the frozen
claims about it.

Modelling conventions:
* machine counters (size_t) are `ℕ`; C int values that can be negative
  (ref_idx, alt_idx, return codes) are `ℤ`;
* the double `min_maf` is `ℚ` and the comparison
  `bc[inf_aid] < tc * min_maf` is exact rational comparison;
* khash string maps keyed by sample-group name are association by index
  into the list of sample-group names;
* file contents are in-memory line lists; I/O failure paths of the
  jfile layer are outside the model.
-/

/-- Sum of a 5-entry base-count vector, the `for (j = 0; j < 5; j++)`
accumulation pattern of csp.c. -/
def sum5 (f : Fin 5 → ℕ) : ℕ := f 0 + f 1 + f 2 + f 3 + f 4

/-- Modelled from the spec: `seq_nt16_idx2int` (jsam module, not under src/)
maps the 4-bit nt16 base encoding to the canonical index 0..4:
A(1) to 0, C(2) to 1, G(4) to 2, T(8) to 3, every other code to 4. -/
def seq_nt16_idx2int (b : ℕ) : Fin 5 :=
  if b = 1 then 0 else if b = 2 then 1 else if b = 4 then 2 else if b = 8 then 3 else 4

/-- Modelled from the spec: `seq_nt16_char2idx` (jsam module, not under src/)
maps a base character to the canonical index 0..4: A to 0, C to 1, G to 2,
T to 3, all others (including N) to 4. -/
def seq_nt16_char2idx (c : Char) : ℕ :=
  if c = 'A' then 0 else if c = 'C' then 1 else if c = 'G' then 2 else if c = 'T' then 3 else 4

/-- Scan a candidate list keeping the index with the largest count; a later
index replaces the current best only on a strictly larger count, so on ties
the lower canonical index wins. -/
def pickMax (bc : Fin 5 → ℕ) : List (Fin 5) → Fin 5 → Fin 5
  | [], best => best
  | i :: rest, best => pickMax bc rest (if bc best < bc i then i else best)

/-- The three canonical indices 0..3 other than the given one (index 4,
never produced as an argmax over 0..3, is mapped like 3). -/
def restOf : Fin 5 → List (Fin 5)
  | 0 => [1, 2, 3]
  | 1 => [0, 2, 3]
  | 2 => [0, 1, 3]
  | _ => [0, 1, 2]

/-- Modelled from the spec: `infer_allele` (mplp module, not under src/).
Scan `bc[0..3]` in canonical order; `inf_rid` is the argmax, `inf_aid` the
argmax of the remaining three; ties are won by the lower canonical index;
N (index 4) is never chosen. -/
def infer_allele (bc : Fin 5 → ℕ) : Fin 5 × Fin 5 :=
  let rid := pickMax bc [1, 2, 3] 0
  let rest := restOf rid
  let aid := pickMax bc rest.tail (rest.headD 0)
  (rid, aid)

/-- The configuration fields of `global_settings` consumed by the modelled
core.  `useBarcodes`, `useSid`, `useUmi` are the values of the
`use_barcodes`, `use_sid`, `use_umi` mode tests. -/
structure global_settings where
  useBarcodes : Bool
  useSid : Bool
  useUmi : Bool
  min_count : ℕ
  min_maf : ℚ
  min_mapq : ℕ
  min_len : ℕ
  rflag_filter : ℕ
  rflag_require : ℕ
  no_orphan : Bool
  is_genotype : Bool
deriving Inhabited

/-- Per-cell-group per-site state `csp_plp_t`: base counts `bc`, quality
lists `qu`, the per-site UMI set `hug` (list of keys of the map_ug hash),
and the scalars filled at finalization. -/
structure csp_plp_t where
  bc : Fin 5 → ℕ
  qu : Fin 5 → List ℕ
  hug : List String
  tc : ℕ
  ad : ℕ
  dp : ℕ
  oth : ℕ
deriving Inhabited

/-- Per-site global state `csp_mplp_t`.  `sgnames` and `plps` model the
sample-group hash `hsg` (name at position i owns the state at position i);
`su` counts the UMI strings taken from the `pool_ps` pool. -/
structure csp_mplp_t where
  sgnames : List String
  plps : List csp_plp_t
  su : ℕ
  bc : Fin 5 → ℕ
  tc : ℕ
  ref_idx : ℤ
  alt_idx : ℤ
  inf_rid : ℤ
  inf_aid : ℤ
  ad : ℕ
  dp : ℕ
  oth : ℕ
  nr_ad : ℕ
  nr_dp : ℕ
  nr_oth : ℕ
deriving Inhabited

/-- The per-read view filled by `pileup_read`: cell barcode, UMI, nt16 base
code and base quality. -/
structure csp_pileup_t where
  cb : String
  umi : String
  base : ℕ
  qual : ℕ
deriving Inhabited, DecidableEq

/-- Lookup of a sample-group name in the hash `hsg`, modelled as the first
index holding the name. -/
def sgLookup : List String → String → Option ℕ
  | [], _ => none
  | x :: xs, c => if x = c then some 0 else (sgLookup xs c).map (· + 1)

/-- The cell-group resolution performed at the top of `csp_mplp_push`
(csp.c lines 132-137): by barcode lookup, by sample ordinal, or failure. -/
def resolveIdx (gs : global_settings) (mplp : csp_mplp_t) (pileup : csp_pileup_t)
    (sid : ℤ) : Option ℕ :=
  if gs.useBarcodes then sgLookup mplp.sgnames pileup.cb
  else if gs.useSid then some sid.toNat
  else none

/-- Register one observation in a cell-group state: `plp->bc[idx]++` and
`list_qu_push(plp->qu[idx], qual)` with `idx = seq_nt16_idx2int(base)`. -/
def plpPushBase (plp : csp_plp_t) (base qual : ℕ) : csp_plp_t :=
  let idx := seq_nt16_idx2int base
  { plp with
    bc := Function.update plp.bc idx (plp.bc idx + 1),
    qu := Function.update plp.qu idx (plp.qu idx ++ [qual]) }

/-- Body of `csp_mplp_push` after the cell group at index `i` has been
resolved (csp.c lines 138-160): with UMI mode, a UMI already in `hug` makes
the call a no-op returning 0; a new UMI takes a pool slot, is inserted into
`hug`, and the base and quality are registered; without UMI mode the base
and quality are always registered. -/
def pushToPlp (pileup : csp_pileup_t) (mplp : csp_mplp_t) (i : ℕ)
    (gs : global_settings) : ℤ × csp_mplp_t :=
  let plp := mplp.plps.getD i default
  if gs.useUmi then
    if pileup.umi ∈ plp.hug then (0, mplp)
    else
      let plp2 := plpPushBase { plp with hug := pileup.umi :: plp.hug } pileup.base pileup.qual
      (0, { mplp with plps := mplp.plps.set i plp2, su := mplp.su + 1 })
  else
    (0, { mplp with plps := mplp.plps.set i (plpPushBase plp pileup.base pileup.qual) })

/-- `csp_mplp_push` (csp.c lines 123-162).  Return 1 and an unchanged state
when the barcode is not a key of the sample-group map, -1 when neither
barcode nor sample-id mode is active, otherwise 0 and the updated state.
The -2 return of the source (hash allocation failure) is outside the
model. -/
def csp_mplp_push (pileup : csp_pileup_t) (mplp : csp_mplp_t) (sid : ℤ)
    (gs : global_settings) : ℤ × csp_mplp_t :=
  if gs.useBarcodes then
    match sgLookup mplp.sgnames pileup.cb with
    | none => (1, mplp)
    | some i => pushToPlp pileup mplp i gs
  else if gs.useSid then pushToPlp pileup mplp sid.toNat gs
  else (-1, mplp)

/-- The summing phase of `csp_mplp_stat` (csp.c lines 172-179): every
cell-group `tc` gains the sum of its base counts, the global `bc` gains the
per-cell counts columnwise, and the global `tc` gains the sum of the new
global `bc`. -/
def statSum (m : csp_mplp_t) : csp_mplp_t :=
  let newbc : Fin 5 → ℕ := fun j => m.bc j + (m.plps.map (fun p => p.bc j)).sum
  { m with
    plps := m.plps.map (fun p => { p with tc := p.tc + sum5 p.bc }),
    bc := newbc,
    tc := m.tc + sum5 newbc }

/-- Total reads at the site as the spec states it: the sum over all cell
groups and all five base indices of the per-cell counts. -/
def totalTc (m : csp_mplp_t) : ℕ := (m.plps.map (fun p => sum5 p.bc)).sum

/-- Columnwise sum of the per-cell base counts over all cell groups. -/
def totalBc (m : csp_mplp_t) : Fin 5 → ℕ := fun j => (m.plps.map (fun p => p.bc j)).sum

/-- Read a 5-entry count vector at a C int index; indices outside 0..4
(never used on the executed paths) read 0. -/
def idxVal (b : Fin 5 → ℕ) (i : ℤ) : ℕ :=
  if h : 0 ≤ i ∧ i < 5 then b ⟨i.toNat, by omega⟩ else 0

/-- `csp_mplp_stat` (csp.c lines 168-204).  Result 1 is the skip return,
0 the emit return carrying the finalized state.  The genotype-likelihood
block (lines 193-201, `get_qual_vector` and `qual_matrix_to_geno` from the
mplp module, not under src/) is outside the model; it runs after every
count below is fixed and does not modify them. -/
def csp_mplp_stat (mplp : csp_mplp_t) (gs : global_settings) : ℤ × csp_mplp_t :=
  let m1 := statSum mplp
  if m1.tc < gs.min_count then (1, m1)
  else
    let rid := (infer_allele m1.bc).1
    let aid := (infer_allele m1.bc).2
    let m2 := { m1 with inf_rid := (rid.val : ℤ), inf_aid := (aid.val : ℤ) }
    if (m1.bc aid : ℚ) < (m1.tc : ℚ) * gs.min_maf then (1, m2)
    else
      let m3 := if m1.ref_idx < 0 ∨ m1.alt_idx < 0 then
                  { m2 with ref_idx := (rid.val : ℤ), alt_idx := (aid.val : ℤ) }
                else m2
      let ad := idxVal m3.bc m3.alt_idx
      let dp := idxVal m3.bc m3.ref_idx + ad
      let m4 := { m3 with ad := ad, dp := dp, oth := m3.tc - dp }
      let plps2 := m4.plps.map (fun p =>
        let pad := idxVal p.bc m4.alt_idx
        let pdp := idxVal p.bc m4.ref_idx + pad
        { p with ad := pad, dp := pdp, oth := p.tc - pdp })
      (0, { m4 with
              plps := plps2,
              nr_ad := m4.nr_ad + plps2.countP (fun p => p.ad != 0),
              nr_dp := m4.nr_dp + plps2.countP (fun p => p.dp != 0),
              nr_oth := m4.nr_oth + plps2.countP (fun p => p.oth != 0) })

/-- BAM flag: read unmapped. -/
def BAM_FUNMAP : ℕ := 4

/-- BAM flag: read paired. -/
def BAM_FPAIRED : ℕ := 1

/-- BAM flag: proper pair. -/
def BAM_FPROPER_PAIR : ℕ := 2

/-- CIGAR operator M. -/
def BAM_CMATCH : ℕ := 0

/-- CIGAR operator =. -/
def BAM_CEQUAL : ℕ := 7

/-- CIGAR operator X. -/
def BAM_CDIFF : ℕ := 8

/-- The core fields of a raw read used by the filters. -/
structure bam1_core_t where
  tid : ℤ
  pos : ℤ
  qual : ℕ
  flag : ℕ
  l_qseq : ℕ
deriving Inhabited, DecidableEq

/-- A raw read: core fields, CIGAR as (op, len) pairs, packed sequence as
nt16 codes, base qualities, and the two auxiliary tag values looked up by
`get_bam_aux_str` (none models a missing tag / NULL). -/
structure bam1_t where
  core : bam1_core_t
  cigar : List (ℕ × ℕ)
  seq : List ℕ
  quals : List ℕ
  umi : Option String
  cb : Option String
deriving Inhabited, DecidableEq

/-- One pileup entry as handed to `pileup_read`. -/
structure bam_pileup1_t where
  b : bam1_t
  qpos : ℕ
  is_del : Bool
  is_refskip : Bool
deriving Inhabited, DecidableEq

/-- The admission test applied to one read inside the retrieval loop of
`mp_func` (csp_pileup.c lines 61-66); `true` means the loop breaks and the
read is surfaced, `false` means `continue` (the read is skipped). -/
def mp_keep (gs : global_settings) (c : bam1_core_t) : Bool :=
  if c.tid < 0 ∨ c.flag &&& BAM_FUNMAP ≠ 0 then false
  else if c.qual < gs.min_mapq then false
  else if gs.rflag_filter ≠ 0 ∧ gs.rflag_filter &&& c.flag ≠ 0 then false
  else if gs.rflag_require ≠ 0 ∧ gs.rflag_require &&& c.flag = 0 then false
  else if gs.no_orphan ∧ c.flag &&& BAM_FPAIRED ≠ 0 ∧ c.flag &&& BAM_FPROPER_PAIR = 0 then false
  else true

/-- `mp_func` on a stream of raw reads: the first read passing `mp_keep`
is returned (none models the -1 end-of-iterator return). -/
def mp_func (gs : global_settings) (reads : List bam1_core_t) : Option bam1_core_t :=
  reads.find? (mp_keep gs)

/-- Aligned length of a read: total CIGAR length of M, = and X operators
(csp_pileup.c lines 100-104). -/
def alnLen (cigar : List (ℕ × ℕ)) : ℕ :=
  cigar.foldl
    (fun laln c =>
      if c.1 = BAM_CMATCH ∨ c.1 = BAM_CEQUAL ∨ c.1 = BAM_CDIFF then laln + c.2 else laln)
    0

/-- `pileup_read` (csp_pileup.c lines 85-115).  Result 1: a required tag is
missing; 2: the read fails a filter; 0: success with the extracted
observation.  On non-zero results the source leaves the output buffer
partially written and the caller never reads it, modelled as `none`.
When the query position is not below `l_qseq`, the recorded observation is
the base index of N with quality 0. -/
def pileup_read (bp : bam_pileup1_t) (gs : global_settings) : ℤ × Option csp_pileup_t :=
  if gs.useUmi ∧ bp.b.umi = none then (1, none)
  else if gs.useBarcodes ∧ bp.b.cb = none then (1, none)
  else if bp.is_del = true then (2, none)
  else if bp.is_refskip = true then (2, none)
  else if 0 < gs.min_len ∧ alnLen bp.b.cigar < gs.min_len then (2, none)
  else if bp.qpos < bp.b.core.l_qseq then
    (0, some { cb := (bp.b.cb).getD "", umi := (bp.b.umi).getD "",
               base := bp.b.seq.getD bp.qpos 15, qual := bp.b.quals.getD bp.qpos 0 })
  else
    (0, some { cb := (bp.b.cb).getD "", umi := (bp.b.umi).getD "",
               base := seq_nt16_char2idx 'N', qual := 0 })

/-- The per-read body of the pileup loop in `pileup_snp` (csp_pileup.c
lines 146-152): run `pileup_read`, push the observation with sid -1
(barcode mode) or the file ordinal (sample-id mode), fail on negative
results, and count the read as pushed exactly when the push returned 0. -/
def pileup_snp_push1 (gs : global_settings) (mplp : csp_mplp_t) (npushed : ℕ)
    (i : ℤ) (bp : bam_pileup1_t) : Except Unit (csp_mplp_t × ℕ) :=
  match pileup_read bp gs with
  | (0, some pl) =>
    if gs.useBarcodes then
      let r := csp_mplp_push pl mplp (-1) gs
      if r.1 < 0 then .error ()
      else .ok (r.2, if r.1 = 0 then npushed + 1 else npushed)
    else if gs.useSid then
      let r := csp_mplp_push pl mplp i gs
      if r.1 < 0 then .error ()
      else .ok (r.2, if r.1 = 0 then npushed + 1 else npushed)
    else .error ()
  | (st, _) => if st < 0 then .error () else .ok (mplp, npushed)

/-- A line of a temporary sparse-matrix shard file: empty (site boundary)
or a data line. -/
inductive MtxLine where
  | empty : MtxLine
  | data : String → MtxLine
deriving Inhabited, DecidableEq

/-- Whether a shard line is a site boundary. -/
def isEmptyLine : MtxLine → Bool
  | .empty => true
  | .data _ => false

/-- The merged body as the spec states it: every data line is emitted
prefixed with the current row counter, every empty line increments the
counter. -/
def numberLines (k : ℕ) : List MtxLine → List (ℕ × String)
  | [] => []
  | .empty :: rest => numberLines (k + 1) rest
  | .data s :: rest => (k, s) :: numberLines k rest

/-- The inner read-copy loop of `merge_mtx` (csp.c lines 283-290) on one
input file, carrying (k, m, output so far). -/
def merge_go (acc : ℕ × ℕ × List (ℕ × String)) : List MtxLine → ℕ × ℕ × List (ℕ × String)
  | [] => acc
  | .empty :: rest => merge_go (acc.1 + 1, acc.2.1, acc.2.2) rest
  | .data s :: rest => merge_go (acc.1, acc.2.1 + 1, acc.2.2 ++ [(acc.1, s)]) rest

/-- Result of `merge_mtx`: merged body, reported site count and record
count. -/
structure MergeRes where
  out : List (ℕ × String)
  ns : ℕ
  nr : ℕ
deriving Inhabited, DecidableEq

/-- `merge_mtx` (csp.c lines 275-301) on the shard files in shard order:
k starts at 1 and m at 0, both running across all files; on completion it
reports `ns = k - 1` and `nr = m`. -/
def merge_mtx (ins : List (List MtxLine)) : MergeRes :=
  let r := ins.foldl merge_go (1, 0, [])
  { out := r.2.2, ns := r.1 - 1, nr := r.2.1 }

/-- The per-shard totals reported by a `csp_pileup_core` worker. -/
structure thdata_totals where
  ns : ℕ
  nr_ad : ℕ
  nr_dp : ℕ
  nr_oth : ℕ
deriving Inhabited, DecidableEq

/-- A final matrix file: the header triple written before merging and the
merged body. -/
structure MtxOut where
  header : ℕ × ℕ × ℕ
  body : List (ℕ × String)
deriving Inhabited, DecidableEq

/-- Merging one matrix in `csp_pileup` (csp_pileup.c lines 531-535 and the
two analogous blocks): write the header with the precomputed totals, run
`merge_mtx`, and fail when the merged counts differ from the precomputed
totals.  The `ret < 0` I/O failure of `merge_mtx` is outside the model. -/
def merge_one_mtx (pns nsample pnr : ℕ) (files : List (List MtxLine)) : Option MtxOut :=
  let r := merge_mtx files
  if r.ns = pns ∧ r.nr = pnr then some { header := (pns, nsample, pnr), body := r.out }
  else none

/-- The post-barrier merge phase of `csp_pileup` (csp_pileup.c lines
526-547): sum the per-shard totals, then merge AD, DP and OTH in order,
stopping at the first failed verification. -/
def csp_pileup_merge (tds : List thdata_totals) (nsample : ℕ)
    (af df ofl : List (List MtxLine)) : Option (MtxOut × MtxOut × MtxOut) :=
  let ns := (tds.map thdata_totals.ns).sum
  let nra := (tds.map thdata_totals.nr_ad).sum
  let nrd := (tds.map thdata_totals.nr_dp).sum
  let nro := (tds.map thdata_totals.nr_oth).sum
  match merge_one_mtx ns nsample nra af with
  | none => none
  | some a =>
    match merge_one_mtx ns nsample nrd df with
    | none => none
    | some d =>
      match merge_one_mtx ns nsample nro ofl with
      | none => none
      | some o => some (a, d, o)

/-- The value of `ntiter` after the multi-thread setup loop of `csp_pileup`
as the source is written: the statement `titer[titer++] = iter`
(csp_pileup.c line 501) modifies the pointer `titer` and never touches
`ntiter`, so each of the `mtd` iterations leaves `ntiter` unchanged. -/
def titer_setup_asWritten (mtd : ℕ) : ℕ :=
  (List.range mtd).foldl (fun ntiter _ => ntiter) 0

/-- The value of `ntiter` after the same loop under the intended statement
`titer[ntiter++] = iter`: each of the `mtd` iterations increments it. -/
def titer_setup_intended (mtd : ℕ) : ℕ :=
  (List.range mtd).foldl (fun ntiter _ => ntiter + 1) 0

/-- The number of iterators destroyed by the cleanup loops of `csp_pileup`
(csp_pileup.c lines 564-571): they run over `i < ntiter`. -/
def titer_cleanup_destroyed (ntiter : ℕ) : ℕ := ntiter

/-- A barcode-mode configuration without UMI mode: one read required per
site, zero minimum allele fraction. -/
def wGs1 : global_settings :=
  { useBarcodes := true, useSid := false, useUmi := false, min_count := 1,
    min_maf := 0, min_mapq := 0, min_len := 0, rflag_filter := 0,
    rflag_require := 0, no_orphan := false, is_genotype := false }

/-- Same configuration with `min_count = 0`. -/
def wGs0 : global_settings :=
  { wGs1 with min_count := 0 }

/-- A cell-group state holding two A reads and one C read. -/
def wPlp1 : csp_plp_t :=
  { bc := ![2, 1, 0, 0, 0], qu := fun _ => [], hug := [], tc := 0,
    ad := 0, dp := 0, oth := 0 }

/-- A cell-group state holding no reads. -/
def wPlp0 : csp_plp_t :=
  { bc := ![0, 0, 0, 0, 0], qu := fun _ => [], hug := [], tc := 0,
    ad := 0, dp := 0, oth := 0 }

/-- A freshly reset site state with one cell group holding reads. -/
def wMplp1 : csp_mplp_t :=
  { sgnames := ["CELL1"], plps := [wPlp1], su := 0, bc := fun _ => 0, tc := 0,
    ref_idx := -1, alt_idx := -1, inf_rid := -1, inf_aid := -1,
    ad := 0, dp := 0, oth := 0, nr_ad := 0, nr_dp := 0, nr_oth := 0 }

/-- A freshly reset site state with one cell group and no retained reads. -/
def wMplp0 : csp_mplp_t :=
  { wMplp1 with plps := [wPlp0] }

/-- A barcode-mode configuration with UMI mode active. -/
def wGs3 : global_settings :=
  { wGs1 with useUmi := true }

/-- A cell-group state whose per-site UMI set already holds "ACGT". -/
def wPlp3 : csp_plp_t :=
  { wPlp0 with hug := ["ACGT"] }

/-- A site state with one cell group named "BC1" that has seen UMI "ACGT". -/
def wMplp3 : csp_mplp_t :=
  { wMplp1 with sgnames := ["BC1"], plps := [wPlp3] }

/-- A read carrying the already-seen UMI "ACGT" for cell group "BC1". -/
def wRead3 : csp_pileup_t :=
  { cb := "BC1", umi := "ACGT", base := 2, qual := 30 }

/-- A sample-id-mode configuration with two required flag bits (0x1 and
0x2). -/
def wGs4 : global_settings :=
  { useBarcodes := false, useSid := true, useUmi := false, min_count := 0,
    min_maf := 0, min_mapq := 0, min_len := 0, rflag_filter := 0,
    rflag_require := 3, no_orphan := false, is_genotype := false }

/-- A mapped read whose flag word has only one of the two required bits. -/
def wCore4 : bam1_core_t :=
  { tid := 0, pos := 0, qual := 60, flag := 1, l_qseq := 0 }

/-- A pileup entry for a filter-passing read whose barcode tag is "XXX". -/
def wBp8 : bam_pileup1_t :=
  { b := { core := { tid := 0, pos := 0, qual := 0, flag := 0, l_qseq := 4 },
           cigar := [], seq := [1, 1, 1, 1], quals := [30, 30, 30, 30],
           umi := none, cb := some "XXX" },
    qpos := 0, is_del := false, is_refskip := false }

/-- The observation `pileup_read` extracts from `wBp8`. -/
def wPl8 : csp_pileup_t :=
  { cb := "XXX", umi := "", base := 1, qual := 30 }

/-- A configuration with no modes and no thresholds active. -/
def wGs10 : global_settings :=
  { useBarcodes := false, useSid := true, useUmi := false, min_count := 0,
    min_maf := 0, min_mapq := 0, min_len := 0, rflag_filter := 0,
    rflag_require := 0, no_orphan := false, is_genotype := false }

/-- A pileup entry whose query position 3 is past the sequence length 0. -/
def wBp10 : bam_pileup1_t :=
  { b := { core := { tid := 0, pos := 0, qual := 0, flag := 0, l_qseq := 0 },
           cigar := [], seq := [], quals := [], umi := none, cb := none },
    qpos := 3, is_del := false, is_refskip := false }

/-- The observation `pileup_read` extracts from `wBp10`. -/
def wPl10 : csp_pileup_t :=
  { cb := "", umi := "", base := 4, qual := 0 }

/-- Shard totals of a single worker: one site, one AD record, two DP
records, no OTH record. -/
def wTd6 : thdata_totals :=
  { ns := 1, nr_ad := 1, nr_dp := 2, nr_oth := 0 }

/-- A one-shard AD temp file: one data line and the site boundary. -/
def wAf6 : List (List MtxLine) := [[.data "1 5", .empty]]

/-- A one-shard DP temp file: two data lines and the site boundary. -/
def wDf6 : List (List MtxLine) := [[.data "1 3", .data "2 2", .empty]]

/-- A one-shard OTH temp file: only the site boundary. -/
def wOf6 : List (List MtxLine) := [[.empty]]

/-- Number of empty lines (site boundaries) in a shard line list. -/
def countEmptyLines : List MtxLine → ℕ
  | [] => 0
  | .empty :: rest => countEmptyLines rest + 1
  | .data _ :: rest => countEmptyLines rest

/-- Number of data lines in a shard line list. -/
def countDataLines : List MtxLine → ℕ
  | [] => 0
  | .empty :: rest => countDataLines rest
  | .data _ :: rest => countDataLines rest + 1

lemma pickMax_mem (bc : Fin 5 → ℕ) :
    ∀ (l : List (Fin 5)) (best : Fin 5), pickMax bc l best ∈ best :: l := by
  intro l
  induction l with
  | nil => intro best; simp [pickMax]
  | cons i rest ih =>
    intro best
    simp only [pickMax]
    by_cases h : bc best < bc i
    · rw [if_pos h]
      have h2 := ih i
      simp only [List.mem_cons] at h2 ⊢
      tauto
    · rw [if_neg h]
      have h2 := ih best
      simp only [List.mem_cons] at h2 ⊢
      tauto

lemma restOf_cons (r : Fin 5) : (restOf r).headD 0 :: (restOf r).tail = restOf r := by
  revert r; decide

lemma restOf_not_self (r : Fin 5) : r ∉ restOf r := by
  revert r; decide

lemma infer_allele_snd_mem (bc : Fin 5 → ℕ) :
    (infer_allele bc).2 ∈ restOf ((infer_allele bc).1) := by
  simp only [infer_allele]
  have hm := pickMax_mem bc (restOf (pickMax bc [1, 2, 3] 0)).tail
    ((restOf (pickMax bc [1, 2, 3] 0)).headD 0)
  rwa [restOf_cons] at hm

lemma infer_allele_ne (bc : Fin 5 → ℕ) : (infer_allele bc).1 ≠ (infer_allele bc).2 := by
  intro he
  have hm := infer_allele_snd_mem bc
  rw [← he] at hm
  exact restOf_not_self _ hm

lemma sum5_eq_sum (f : Fin 5 → ℕ) : sum5 f = ∑ j : Fin 5, f j := by
  rw [Fin.sum_univ_five]; rfl

lemma sum5_add (f g : Fin 5 → ℕ) : sum5 (fun j => f j + g j) = sum5 f + sum5 g := by
  simp only [sum5]; ring

lemma sum5_pair_le (f : Fin 5 → ℕ) (r a : Fin 5) (h : r ≠ a) : f r + f a ≤ sum5 f := by
  rw [sum5_eq_sum]
  calc f r + f a = ∑ j ∈ ({r, a} : Finset (Fin 5)), f j := (Finset.sum_pair h).symm
    _ ≤ ∑ j, f j := Finset.sum_le_sum_of_subset (Finset.subset_univ _)

lemma sum5_colsum (l : List csp_plp_t) :
    sum5 (fun j => (l.map (fun p => p.bc j)).sum) = (l.map (fun p => sum5 p.bc)).sum := by
  induction l with
  | nil => simp [sum5]
  | cons p rest ih =>
    simp only [List.map_cons, List.sum_cons]
    rw [← ih, ← sum5_add]

lemma statSum_bc_reset (m : csp_mplp_t) (hbc : ∀ j, m.bc j = 0) :
    (statSum m).bc = totalBc m := by
  funext j
  simp [statSum, totalBc, hbc j]

lemma statSum_tc_reset (m : csp_mplp_t) (h0 : m.tc = 0) (hbc : ∀ j, m.bc j = 0) :
    (statSum m).tc = totalTc m := by
  calc (statSum m).tc = m.tc + sum5 ((statSum m).bc) := rfl
    _ = sum5 (totalBc m) := by rw [h0, statSum_bc_reset m hbc, zero_add]
    _ = totalTc m := sum5_colsum m.plps

lemma stat_fst_char (m : csp_mplp_t) (gs : global_settings) :
    (csp_mplp_stat m gs).1 =
      if (statSum m).tc < gs.min_count
         ∨ (((statSum m).bc ((infer_allele ((statSum m).bc)).2) : ℚ) <
              ((statSum m).tc : ℚ) * gs.min_maf)
      then 1 else 0 := by
  simp only [csp_mplp_stat]
  split_ifs <;> first | rfl | tauto

lemma idxVal_coe (b : Fin 5 → ℕ) (i : Fin 5) : idxVal b ((i.val : ℤ)) = b i := by
  have h : (0 : ℤ) ≤ (i.val : ℤ) ∧ ((i.val : ℤ)) < 5 := by
    refine ⟨Int.ofNat_nonneg _, ?_⟩
    exact_mod_cast i.isLt
  rw [idxVal, dif_pos h]
  congr 1

lemma list_getD_set_self {α : Type} (l : List α) (i : ℕ) (a d : α) (h : i < l.length) :
    (l.set i a).getD i d = a := by
  induction l generalizing i with
  | nil => simp at h
  | cons x xs ih =>
    cases i with
    | zero => rfl
    | succ n =>
      exact ih n (by simpa using h)

lemma sgLookup_eq_none (l : List String) (c : String) (h : c ∉ l) : sgLookup l c = none := by
  induction l with
  | nil => rfl
  | cons x xs ih =>
    simp only [List.mem_cons, not_or] at h
    simp only [sgLookup]
    rw [if_neg (fun he => h.1 he.symm), ih h.2]
    rfl

lemma statSum_ref_idx (m : csp_mplp_t) : (statSum m).ref_idx = m.ref_idx := rfl

lemma statSum_alt_idx (m : csp_mplp_t) : (statSum m).alt_idx = m.alt_idx := rfl

/-- Claim C1: for every site that `csp_mplp_stat` emits (from a freshly
reset state, as its only caller `pileup_snp` provides: zero global counts
and negative ref/alt seeds), the derived global scalars satisfy
`ad = bc[alt_idx]`, `dp = bc[ref_idx] + ad` and `oth = tc - dp`, where `tc`
is the sum over all cell groups and all five base indices of the per-cell
counts; hence `ad + (dp - ad) + oth = tc`, `ad ≤ dp ≤ tc`, and
`ref_idx ≠ alt_idx`. -/
theorem claim_C1_emit_invariants (gs : global_settings) (m : csp_mplp_t)
    (h0 : m.tc = 0) (hbc : ∀ j, m.bc j = 0)
    (hr : m.ref_idx < 0 ∨ m.alt_idx < 0)
    (hemit : (csp_mplp_stat m gs).1 = 0) :
    (csp_mplp_stat m gs).2.ad = idxVal (csp_mplp_stat m gs).2.bc (csp_mplp_stat m gs).2.alt_idx
    ∧ (csp_mplp_stat m gs).2.dp
        = idxVal (csp_mplp_stat m gs).2.bc (csp_mplp_stat m gs).2.ref_idx
          + (csp_mplp_stat m gs).2.ad
    ∧ (csp_mplp_stat m gs).2.oth = (csp_mplp_stat m gs).2.tc - (csp_mplp_stat m gs).2.dp
    ∧ (csp_mplp_stat m gs).2.tc = totalTc m
    ∧ (csp_mplp_stat m gs).2.ad + ((csp_mplp_stat m gs).2.dp - (csp_mplp_stat m gs).2.ad)
        + (csp_mplp_stat m gs).2.oth = (csp_mplp_stat m gs).2.tc
    ∧ (csp_mplp_stat m gs).2.ad ≤ (csp_mplp_stat m gs).2.dp
    ∧ (csp_mplp_stat m gs).2.dp ≤ (csp_mplp_stat m gs).2.tc
    ∧ (csp_mplp_stat m gs).2.ref_idx ≠ (csp_mplp_stat m gs).2.alt_idx := by
  have hC : ¬ ((statSum m).tc < gs.min_count
      ∨ (((statSum m).bc ((infer_allele ((statSum m).bc)).2) : ℚ) <
           ((statSum m).tc : ℚ) * gs.min_maf)) := by
    intro hc
    rw [stat_fst_char m gs, if_pos hc] at hemit
    exact absurd hemit (by decide)
  obtain ⟨hc1, hc2⟩ := not_or.mp hC
  have hr2 : (statSum m).ref_idx < 0 ∨ (statSum m).alt_idx < 0 := by
    rw [statSum_ref_idx, statSum_alt_idx]; exact hr
  have hky : idxVal ((statSum m).bc) ((((infer_allele ((statSum m).bc)).1).val : ℤ))
      + idxVal ((statSum m).bc) ((((infer_allele ((statSum m).bc)).2).val : ℤ))
      ≤ (statSum m).tc := by
    rw [idxVal_coe, idxVal_coe]
    have h1 := sum5_pair_le ((statSum m).bc) _ _ (infer_allele_ne ((statSum m).bc))
    have h2 : (statSum m).tc = m.tc + sum5 ((statSum m).bc) := rfl
    omega
  simp only [csp_mplp_stat, if_neg hc1, if_neg hc2, if_pos hr2]
  refine ⟨trivial, trivial, trivial, statSum_tc_reset m h0 hbc, ?_, ?_, ?_, ?_⟩
  · omega
  · omega
  · omega
  · intro he
    apply infer_allele_ne ((statSum m).bc)
    apply Fin.ext
    exact_mod_cast he

/-- Witness for claim C1 at a concrete reset state holding two A reads and
one C read in one cell group. -/
theorem claim_C1_witness :
    wMplp1.tc = 0 ∧ wMplp1.ref_idx < 0 ∧ (csp_mplp_stat wMplp1 wGs1).1 = 0
    ∧ ((csp_mplp_stat wMplp1 wGs1).2.ad
        = idxVal (csp_mplp_stat wMplp1 wGs1).2.bc (csp_mplp_stat wMplp1 wGs1).2.alt_idx
    ∧ (csp_mplp_stat wMplp1 wGs1).2.dp
        = idxVal (csp_mplp_stat wMplp1 wGs1).2.bc (csp_mplp_stat wMplp1 wGs1).2.ref_idx
          + (csp_mplp_stat wMplp1 wGs1).2.ad
    ∧ (csp_mplp_stat wMplp1 wGs1).2.oth
        = (csp_mplp_stat wMplp1 wGs1).2.tc - (csp_mplp_stat wMplp1 wGs1).2.dp
    ∧ (csp_mplp_stat wMplp1 wGs1).2.tc = totalTc wMplp1
    ∧ (csp_mplp_stat wMplp1 wGs1).2.ad
        + ((csp_mplp_stat wMplp1 wGs1).2.dp - (csp_mplp_stat wMplp1 wGs1).2.ad)
        + (csp_mplp_stat wMplp1 wGs1).2.oth = (csp_mplp_stat wMplp1 wGs1).2.tc
    ∧ (csp_mplp_stat wMplp1 wGs1).2.ad ≤ (csp_mplp_stat wMplp1 wGs1).2.dp
    ∧ (csp_mplp_stat wMplp1 wGs1).2.dp ≤ (csp_mplp_stat wMplp1 wGs1).2.tc
    ∧ (csp_mplp_stat wMplp1 wGs1).2.ref_idx ≠ (csp_mplp_stat wMplp1 wGs1).2.alt_idx) := by
  have hA : ¬ ((statSum wMplp1).tc < wGs1.min_count) := by decide
  have hB : ¬ (((statSum wMplp1).bc ((infer_allele ((statSum wMplp1).bc)).2) : ℚ) <
      ((statSum wMplp1).tc : ℚ) * wGs1.min_maf) := by
    have h1 : (statSum wMplp1).bc ((infer_allele ((statSum wMplp1).bc)).2) = 1 := by decide
    have h2 : (statSum wMplp1).tc = 3 := by decide
    rw [h1, h2]
    norm_num [wGs1]
  have hemit : (csp_mplp_stat wMplp1 wGs1).1 = 0 := by
    rw [stat_fst_char, if_neg (not_or.mpr ⟨hA, hB⟩)]
  exact ⟨rfl, by decide, hemit,
    claim_C1_emit_invariants wGs1 wMplp1 rfl (fun _ => rfl) (Or.inl (by decide)) hemit⟩

/-- Claim C2: from a freshly reset state, `csp_mplp_stat` returns the skip
result 1 exactly when `tc < min_count` or `bc[inf_aid] < tc * min_maf`,
where `inf_aid` is the inferred alternate allele computed on the summed
counts; otherwise it returns the emit result 0. -/
theorem claim_C2_skip_iff (gs : global_settings) (m : csp_mplp_t)
    (h0 : m.tc = 0) (hbc : ∀ j, m.bc j = 0) :
    (csp_mplp_stat m gs).1 =
      if totalTc m < gs.min_count
         ∨ ((totalBc m ((infer_allele (totalBc m)).2) : ℚ)
              < (totalTc m : ℚ) * gs.min_maf)
      then 1 else 0 := by
  rw [stat_fst_char, statSum_bc_reset m hbc, statSum_tc_reset m h0 hbc]

/-- Witness for claim C2 at a concrete reset state. -/
theorem claim_C2_witness :
    wMplp1.tc = 0 ∧ (∀ j, wMplp1.bc j = 0)
    ∧ ((csp_mplp_stat wMplp1 wGs1).1 =
        if totalTc wMplp1 < wGs1.min_count
           ∨ ((totalBc wMplp1 ((infer_allele (totalBc wMplp1)).2) : ℚ)
                < (totalTc wMplp1 : ℚ) * wGs1.min_maf)
        then 1 else 0) :=
  ⟨rfl, fun _ => rfl, claim_C2_skip_iff wGs1 wMplp1 rfl (fun _ => rfl)⟩

/-- Counterexample to claim C7 as stated: with `min_count = 0`, a site with
total retained count `tc = 0` is not skipped: `csp_mplp_stat` returns the
emit result 0. -/
theorem claim_C7_counterexample :
    (statSum wMplp0).tc = 0 ∧ (csp_mplp_stat wMplp0 wGs0).1 = 0 := by
  have hA : ¬ ((statSum wMplp0).tc < wGs0.min_count) := by decide
  have hB : ¬ (((statSum wMplp0).bc ((infer_allele ((statSum wMplp0).bc)).2) : ℚ) <
      ((statSum wMplp0).tc : ℚ) * wGs0.min_maf) := by
    have h1 : (statSum wMplp0).bc ((infer_allele ((statSum wMplp0).bc)).2) = 0 := by decide
    have h2 : (statSum wMplp0).tc = 0 := by decide
    rw [h1, h2]
    norm_num [wGs0, wGs1]
  refine ⟨by decide, ?_⟩
  rw [stat_fst_char, if_neg (not_or.mpr ⟨hA, hB⟩)]

/-- Claim C7 amended: a site whose total retained read count is below 1 is
always skipped whenever `min_count ≥ 1`; with `min_count = 0` the source
emits such a site (see the counterexample). -/
theorem claim_C7_amended (gs : global_settings) (m : csp_mplp_t)
    (hmc : 1 ≤ gs.min_count) (htc : (statSum m).tc = 0) :
    (csp_mplp_stat m gs).1 = 1 := by
  rw [stat_fst_char, if_pos]
  left
  omega

/-- Witness for the amended claim C7 at a concrete empty site. -/
theorem claim_C7_amended_witness :
    1 ≤ wGs1.min_count ∧ (statSum wMplp0).tc = 0 ∧ (csp_mplp_stat wMplp0 wGs1).1 = 1 :=
  ⟨by decide, by decide, claim_C7_amended wGs1 wMplp0 (by decide) (by decide)⟩

/-- Claim C3: with UMI mode active, `csp_mplp_push` counts at most once per
distinct UMI for a (cell group, site) pair: when the UMI of the read is
already in the resolved cell group UMI set, the call returns 0 and leaves
the state exactly unchanged (so the base and quality retained for a
duplicated UMI are those of the first read observed); when the UMI is new,
the call returns 0, increments the base count, appends the quality, and
records the UMI. -/
theorem claim_C3_umi_dedup (gs : global_settings) (m : csp_mplp_t) (r : csp_pileup_t)
    (sid : ℤ) (i : ℕ)
    (hu : gs.useUmi = true)
    (hres : resolveIdx gs m r sid = some i)
    (hlen : i < m.plps.length) :
    (r.umi ∈ (m.plps.getD i default).hug → csp_mplp_push r m sid gs = (0, m))
    ∧ (r.umi ∉ (m.plps.getD i default).hug →
        (csp_mplp_push r m sid gs).1 = 0
        ∧ ((csp_mplp_push r m sid gs).2.plps.getD i default).bc (seq_nt16_idx2int r.base)
            = (m.plps.getD i default).bc (seq_nt16_idx2int r.base) + 1
        ∧ ((csp_mplp_push r m sid gs).2.plps.getD i default).qu (seq_nt16_idx2int r.base)
            = (m.plps.getD i default).qu (seq_nt16_idx2int r.base) ++ [r.qual]
        ∧ r.umi ∈ ((csp_mplp_push r m sid gs).2.plps.getD i default).hug) := by
  have hpush : csp_mplp_push r m sid gs = pushToPlp r m i gs := by
    unfold csp_mplp_push
    unfold resolveIdx at hres
    by_cases hb : gs.useBarcodes
    · rw [if_pos hb] at hres
      rw [if_pos hb, hres]
    · rw [if_neg hb] at hres
      by_cases hs : gs.useSid
      · rw [if_pos hs] at hres
        injection hres with h2
        rw [if_neg hb, if_pos hs, h2]
      · rw [if_neg hs] at hres
        exact absurd hres (by simp)
  constructor
  · intro hmem
    rw [hpush]
    simp only [pushToPlp, if_pos hu, if_pos hmem]
  · intro hmem
    have hsnd : (csp_mplp_push r m sid gs).2.plps.getD i default
        = plpPushBase { m.plps.getD i default with hug := r.umi :: (m.plps.getD i default).hug }
            r.base r.qual := by
      rw [hpush]
      simp only [pushToPlp, if_pos hu, if_neg hmem]
      exact list_getD_set_self _ _ _ _ hlen
    refine ⟨?_, ?_, ?_, ?_⟩
    · rw [hpush]
      simp only [pushToPlp, if_pos hu, if_neg hmem]
    · rw [hsnd]
      simp [plpPushBase, Function.update_same]
    · rw [hsnd]
      simp [plpPushBase, Function.update_same]
    · rw [hsnd]
      simp [plpPushBase]

/-- Witness for claim C3 at a concrete state whose cell group "BC1" has
already seen UMI "ACGT", with a read carrying the same UMI. -/
theorem claim_C3_witness :
    wGs3.useUmi = true ∧ resolveIdx wGs3 wMplp3 wRead3 0 = some 0
    ∧ 0 < wMplp3.plps.length
    ∧ ((wRead3.umi ∈ (wMplp3.plps.getD 0 default).hug →
          csp_mplp_push wRead3 wMplp3 0 wGs3 = (0, wMplp3))
       ∧ (wRead3.umi ∉ (wMplp3.plps.getD 0 default).hug →
          (csp_mplp_push wRead3 wMplp3 0 wGs3).1 = 0
          ∧ ((csp_mplp_push wRead3 wMplp3 0 wGs3).2.plps.getD 0 default).bc
                (seq_nt16_idx2int wRead3.base)
              = (wMplp3.plps.getD 0 default).bc (seq_nt16_idx2int wRead3.base) + 1
          ∧ ((csp_mplp_push wRead3 wMplp3 0 wGs3).2.plps.getD 0 default).qu
                (seq_nt16_idx2int wRead3.base)
              = (wMplp3.plps.getD 0 default).qu (seq_nt16_idx2int wRead3.base) ++ [wRead3.qual]
          ∧ wRead3.umi ∈ ((csp_mplp_push wRead3 wMplp3 0 wGs3).2.plps.getD 0 default).hug)) :=
  ⟨rfl, by decide, by decide,
    claim_C3_umi_dedup wGs3 wMplp3 wRead3 0 0 rfl (by decide) (by decide)⟩

/-- Claim C8: in barcode mode, `csp_mplp_push` on a filter-passed read
whose barcode is not a key of the cell-group map returns the silent-drop
result 1 (not an error) with the aggregation state exactly unchanged, and
the per-read loop body of `pileup_snp` does not count such a read as
pushed. -/
theorem claim_C8_unknown_barcode (gs : global_settings) (m : csp_mplp_t)
    (bp : bam_pileup1_t) (pl : csp_pileup_t) (np : ℕ) (sid i : ℤ)
    (hb : gs.useBarcodes = true)
    (hfp : pileup_read bp gs = (0, some pl))
    (hnot : pl.cb ∉ m.sgnames) :
    csp_mplp_push pl m sid gs = (1, m)
    ∧ pileup_snp_push1 gs m np i bp = .ok (m, np) := by
  have hlk : sgLookup m.sgnames pl.cb = none := sgLookup_eq_none _ _ hnot
  have hp : ∀ s : ℤ, csp_mplp_push pl m s gs = (1, m) := by
    intro s
    unfold csp_mplp_push
    rw [if_pos hb, hlk]
  refine ⟨hp sid, ?_⟩
  unfold pileup_snp_push1
  rw [hfp]
  simp [hb, hp (-1)]

/-- Witness for claim C8 at a concrete state whose only cell group is
"CELL1", with a filter-passed read carrying barcode "XXX". -/
theorem claim_C8_witness :
    wGs1.useBarcodes = true ∧ pileup_read wBp8 wGs1 = (0, some wPl8)
    ∧ wPl8.cb ∉ wMplp1.sgnames
    ∧ (csp_mplp_push wPl8 wMplp1 2 wGs1 = (1, wMplp1)
       ∧ pileup_snp_push1 wGs1 wMplp1 5 0 wBp8 = .ok (wMplp1, 5)) :=
  ⟨rfl, by decide, by decide,
    claim_C8_unknown_barcode wGs1 wMplp1 wBp8 wPl8 5 2 0 rfl (by decide) (by decide)⟩

/-- Counterexample to claim C4 as stated: with `rflag_require = 3`, a read
with flag word 1 (only one of the two required bits) is admitted by the
filter of `mp_func`, although `flags AND rflag_require` differs from
`rflag_require`. -/
theorem claim_C4_counterexample :
    mp_keep wGs4 wCore4 = true
    ∧ wCore4.flag &&& wGs4.rflag_require ≠ wGs4.rflag_require := by
  decide

/-- Claim C4 amended: when `rflag_require` is nonzero, a read is admitted
by the filter of `mp_func` only if at least one bit of `rflag_require` is
set in the flag word (`flags AND rflag_require` is nonzero); a read with
none of the required bits is skipped. -/
theorem claim_C4_amended (gs : global_settings) (c : bam1_core_t)
    (hne : gs.rflag_require ≠ 0) (hk : mp_keep gs c = true) :
    c.flag &&& gs.rflag_require ≠ 0 := by
  unfold mp_keep at hk
  split_ifs at hk with h1 h2 h3 h4 h5
  intro h0
  exact h4 ⟨hne, by rw [Nat.land_comm]; exact h0⟩

/-- Witness for the amended claim C4 at the concrete read of the
counterexample. -/
theorem claim_C4_amended_witness :
    wGs4.rflag_require ≠ 0 ∧ mp_keep wGs4 wCore4 = true
    ∧ wCore4.flag &&& wGs4.rflag_require ≠ 0 :=
  ⟨by decide, by decide, claim_C4_amended wGs4 wCore4 (by decide) (by decide)⟩

/-- Claim C10: for every read accepted by `pileup_read` whose pileup query
position is not below the read sequence length, the recorded observation
is the base index of N with quality 0; the extraction never indexes the
sequence or quality arrays out of range (the model is total by
construction). -/
theorem claim_C10_qpos_total (bp : bam_pileup1_t) (gs : global_settings)
    (h : bp.b.core.l_qseq ≤ bp.qpos) (pl : csp_pileup_t)
    (hp : pileup_read bp gs = (0, some pl)) :
    pl.base = seq_nt16_char2idx 'N' ∧ pl.qual = 0 := by
  unfold pileup_read at hp
  split_ifs at hp with h1 h2 h3 h4 h5 h6
  · exact absurd hp (by simp)
  · exact absurd hp (by simp)
  · exact absurd hp (by simp)
  · exact absurd hp (by simp)
  · exact absurd hp (by simp)
  · omega
  · simp only [Prod.mk.injEq, Option.some.injEq] at hp
    obtain ⟨-, hp2⟩ := hp
    rw [← hp2]
    exact ⟨rfl, rfl⟩

/-- Witness for claim C10 at a concrete pileup entry with query position 3
on a read of sequence length 0. -/
theorem claim_C10_witness :
    wBp10.b.core.l_qseq ≤ wBp10.qpos
    ∧ pileup_read wBp10 wGs10 = (0, some wPl10)
    ∧ (wPl10.base = seq_nt16_char2idx 'N' ∧ wPl10.qual = 0) :=
  ⟨by decide, by decide, claim_C10_qpos_total wBp10 wGs10 (by decide) wPl10 (by decide)⟩

lemma merge_go_spec (l : List MtxLine) :
    ∀ (k mm : ℕ) (out : List (ℕ × String)),
      merge_go (k, mm, out) l =
        (k + countEmptyLines l, mm + countDataLines l, out ++ numberLines k l) := by
  induction l with
  | nil =>
    intro k mm out
    simp [merge_go, countEmptyLines, countDataLines, numberLines]
  | cons x rest ih =>
    intro k mm out
    cases x with
    | empty =>
      show merge_go (k + 1, mm, out) rest = _
      rw [ih]
      simp only [countEmptyLines, countDataLines, numberLines]
      have h1 : k + 1 + countEmptyLines rest = k + (countEmptyLines rest + 1) := by omega
      rw [h1]
    | data s =>
      show merge_go (k, mm + 1, out ++ [(k, s)]) rest = _
      rw [ih]
      simp only [countEmptyLines, countDataLines, numberLines]
      have h1 : mm + 1 + countDataLines rest = mm + (countDataLines rest + 1) := by omega
      rw [h1, List.append_assoc]
      rfl

lemma merge_go_append (l1 l2 : List MtxLine) :
    ∀ acc, merge_go acc (l1 ++ l2) = merge_go (merge_go acc l1) l2 := by
  induction l1 with
  | nil => intro acc; rfl
  | cons x rest ih =>
    intro acc
    cases x with
    | empty => exact ih _
    | data s => exact ih _

lemma merge_mtx_foldl (ins : List (List MtxLine)) :
    ∀ acc, ins.foldl merge_go acc = merge_go acc ins.flatten := by
  induction ins with
  | nil => intro acc; rfl
  | cons f rest ih =>
    intro acc
    simp only [List.foldl_cons, List.flatten_cons]
    rw [merge_go_append, ← ih]

/-- Claim C5: `merge_mtx` over the shard files in shard order writes one
line per data line prefixed with the running row counter (start 1, bumped
by every empty line), and reports `ns` equal to the total number of empty
lines seen and `nr` equal to the total number of data lines copied. -/
theorem claim_C5_merge_mtx (ins : List (List MtxLine)) :
    (merge_mtx ins).out = numberLines 1 ins.flatten
    ∧ (merge_mtx ins).ns = countEmptyLines ins.flatten
    ∧ (merge_mtx ins).nr = countDataLines ins.flatten := by
  have hf := merge_mtx_foldl ins (1, 0, [])
  have hs := merge_go_spec ins.flatten 1 0 []
  simp only [merge_mtx, hf, hs]
  refine ⟨by simp, by omega, by omega⟩

/-- Claim C6: after the worker barrier, the merge phase of `csp_pileup`
fails exactly when, for one of the three matrices in order AD, DP, OTH,
the merged site count differs from the sum of the per-shard `ns` values or
the merged record count differs from the sum of the corresponding
per-shard `nr` values; on success each header carries exactly the
precomputed shard sums (written before merging) and the merged body. -/
theorem claim_C6_merge_verification (tds : List thdata_totals) (nsample : ℕ)
    (af df ofl : List (List MtxLine)) :
    (csp_pileup_merge tds nsample af df ofl = none ↔
      ¬ ((merge_mtx af).ns = (tds.map thdata_totals.ns).sum
          ∧ (merge_mtx af).nr = (tds.map thdata_totals.nr_ad).sum)
      ∨ ¬ ((merge_mtx df).ns = (tds.map thdata_totals.ns).sum
          ∧ (merge_mtx df).nr = (tds.map thdata_totals.nr_dp).sum)
      ∨ ¬ ((merge_mtx ofl).ns = (tds.map thdata_totals.ns).sum
          ∧ (merge_mtx ofl).nr = (tds.map thdata_totals.nr_oth).sum))
    ∧ (((merge_mtx af).ns = (tds.map thdata_totals.ns).sum
          ∧ (merge_mtx af).nr = (tds.map thdata_totals.nr_ad).sum) →
       ((merge_mtx df).ns = (tds.map thdata_totals.ns).sum
          ∧ (merge_mtx df).nr = (tds.map thdata_totals.nr_dp).sum) →
       ((merge_mtx ofl).ns = (tds.map thdata_totals.ns).sum
          ∧ (merge_mtx ofl).nr = (tds.map thdata_totals.nr_oth).sum) →
       csp_pileup_merge tds nsample af df ofl =
         some ({ header := ((tds.map thdata_totals.ns).sum, nsample,
                            (tds.map thdata_totals.nr_ad).sum),
                 body := (merge_mtx af).out },
               { header := ((tds.map thdata_totals.ns).sum, nsample,
                            (tds.map thdata_totals.nr_dp).sum),
                 body := (merge_mtx df).out },
               { header := ((tds.map thdata_totals.ns).sum, nsample,
                            (tds.map thdata_totals.nr_oth).sum),
                 body := (merge_mtx ofl).out })) := by
  simp only [csp_pileup_merge, merge_one_mtx]
  by_cases hA : ((merge_mtx af).ns = (tds.map thdata_totals.ns).sum
      ∧ (merge_mtx af).nr = (tds.map thdata_totals.nr_ad).sum)
  · by_cases hD : ((merge_mtx df).ns = (tds.map thdata_totals.ns).sum
        ∧ (merge_mtx df).nr = (tds.map thdata_totals.nr_dp).sum)
    · by_cases hO : ((merge_mtx ofl).ns = (tds.map thdata_totals.ns).sum
          ∧ (merge_mtx ofl).nr = (tds.map thdata_totals.nr_oth).sum)
      · simp only [if_pos hA, if_pos hD, if_pos hO]
        exact ⟨⟨fun h => absurd h (by simp), fun h => by tauto⟩, fun _ _ _ => trivial⟩
      · simp only [if_pos hA, if_pos hD, if_neg hO]
        exact ⟨⟨fun _ => Or.inr (Or.inr hO), fun _ => trivial⟩, fun _ _ hO2 => absurd hO2 hO⟩
    · simp only [if_pos hA, if_neg hD]
      exact ⟨⟨fun _ => Or.inr (Or.inl hD), fun _ => trivial⟩, fun _ hD2 _ => absurd hD2 hD⟩
  · simp only [if_neg hA]
    exact ⟨⟨fun _ => Or.inl hA, fun _ => trivial⟩, fun hA2 _ _ => absurd hA2 hA⟩

/-- Witness for claim C6 at one shard with matching totals. -/
theorem claim_C6_witness :
    ((merge_mtx wAf6).ns = ([wTd6].map thdata_totals.ns).sum
      ∧ (merge_mtx wAf6).nr = ([wTd6].map thdata_totals.nr_ad).sum)
    ∧ csp_pileup_merge [wTd6] 3 wAf6 wDf6 wOf6 =
        some ({ header := (1, 3, 1), body := [(1, "1 5")] },
              { header := (1, 3, 2), body := [(1, "1 3"), (1, "2 2")] },
              { header := (1, 3, 0), body := [] }) := by
  refine ⟨by decide, ?_⟩
  have h := (claim_C6_merge_verification [wTd6] 3 wAf6 wDf6 wOf6).2
    (by decide) (by decide) (by decide)
  rw [h]
  decide

lemma foldl_keep (l : List ℕ) : ∀ a : ℕ, l.foldl (fun nt _ => nt) a = a := by
  induction l with
  | nil => intro a; rfl
  | cons x rest ih => intro a; exact ih a

lemma foldl_bump (l : List ℕ) : ∀ a : ℕ, l.foldl (fun nt _ => nt + 1) a = a + l.length := by
  induction l with
  | nil => intro a; rfl
  | cons x rest ih =>
    intro a
    rw [List.foldl_cons, ih]
    simp only [List.length_cons]
    omega

/-- Claim C9: the source line `titer[titer++] = iter` never increments the
element count `ntiter`, so after the setup loop over all `mtd` shards the
recorded count is 0, not `mtd`, and the cleanup loops (which run over
`i < ntiter`) destroy none of the `mtd` created iterator arrays; under the
intended statement `titer[ntiter++] = iter` the count would reach `mtd`. -/
theorem claim_C9_titer_bug (mtd : ℕ) :
    titer_setup_asWritten mtd = 0
    ∧ titer_setup_intended mtd = mtd
    ∧ titer_cleanup_destroyed (titer_setup_asWritten mtd) = 0 := by
  refine ⟨foldl_keep _ 0, ?_, foldl_keep _ 0⟩
  show (List.range mtd).foldl (fun nt _ => nt + 1) 0 = mtd
  rw [foldl_bump]
  simp
